import Mathlib

/-!
Shallow embedding of the marimo-docs MCP server (`src/index.ts` and its
extended variant): endpoint table, URL construction, HTML extraction,
fetch/search operations and the tool dispatcher, together with proofs of
the specified properties.

All definitions are written with structural recursion over character lists
so that concrete instances evaluate inside the kernel.
-/

set_option maxRecDepth 100000

namespace MarimoDocs

/-- Error codes used by `McpError` in the server (subset of the MCP SDK codes
that the source actually throws). -/
inductive ErrorCode where
  | invalidParams
  | methodNotFound
  | internalError
deriving DecidableEq, Repr

/-- Structure of `McpError(code, message)` as thrown by the server. -/
structure McpError where
  code : ErrorCode
  message : String
deriving DecidableEq, Repr

/-- A parameter row of an `ApiDoc` (`{name, description, required}`). -/
structure Param where
  name : String
  description : String
  required : Bool
deriving DecidableEq, Repr

/-- The `ApiDoc` record returned by `fetchDoc`. -/
structure ApiDoc where
  title : String
  description : String
  parameters : List Param
  examples : List String
deriving DecidableEq, Repr

/-- Whether the first list is a prefix of the second (Boolean). -/
def prefixOfList : List Char → List Char → Bool
  | [], _ => true
  | _ :: _, [] => false
  | a :: as, b :: bs => a = b && prefixOfList as bs

/-- Whether `needle` occurs as a contiguous sublist of the second argument. -/
def subSearch (needle : List Char) : List Char → Bool
  | [] => needle.isEmpty
  | c :: rest => prefixOfList needle (c :: rest) || subSearch needle rest

/-- JavaScript `haystack.includes(needle)`: substring containment. -/
def jsIncludes (haystack needle : String) : Bool :=
  subSearch needle.data haystack.data

/-- JavaScript whitespace test used by `String.prototype.trim` (the
characters that occur in practice). -/
def isJsSpace (c : Char) : Bool :=
  c = ' ' || c = '\t' || c = '\n' || c = '\r' || c = '\x0b' || c = '\x0c'

/-- JavaScript `s.trim()`. -/
def jsTrim (s : String) : String :=
  ⟨((s.data.dropWhile isJsSpace).reverse.dropWhile isJsSpace).reverse⟩

/-- ASCII lower-casing of one character (the fragment of
`String.prototype.toLowerCase` exercised here). -/
def lowerChar (c : Char) : Char :=
  if 'A' ≤ c ∧ c ≤ 'Z' then Char.ofNat (c.toNat + 32) else c

/-- JavaScript `s.toLowerCase()` (ASCII fragment). -/
def jsLower (s : String) : String :=
  ⟨s.data.map lowerChar⟩

/-- Join a list of strings with a separator (plain structural recursion). -/
def joinWith (sep : String) : List String → String
  | [] => ""
  | [s] => s
  | s :: rest => s ++ sep ++ joinWith sep rest

/-- JavaScript `path.split('/')` on the underlying character list. -/
def splitSlash : List Char → List (List Char)
  | [] => [[]]
  | '/' :: rest => [] :: splitSlash rest
  | c :: rest =>
    match splitSlash rest with
    | [] => [[c]]
    | g :: gs => (c :: g) :: gs

/-- Property lookup `table[element]` on the endpoint record, modelled as
first-match lookup in the insertion-ordered association list of own
properties. -/
def lookupTable : List (String × String) → String → Option String
  | [], _ => none
  | (k, v) :: rest, e => if k = e then some v else lookupTable rest e

/-- JavaScript truthiness of `endpoints[element]` (`undefined` and the empty
string are falsy). -/
def truthyPath : Option String → Bool
  | none => false
  | some s => s ≠ ""

/-- Core of `url.replace(/([^:]\/)\/+/g, "$1")`: left-to-right scan; a
non-colon character followed by two or more slashes has the whole greedy
slash run replaced by a single slash, scanning resuming after the run.
`fuel` only drives the recursion; it is always at least the list length,
so the `0` branch is never reached from `collapseSlashes`. -/
def collapseAux : Nat → List Char → List Char
  | 0, cs => cs
  | _ + 1, [] => []
  | fuel + 1, c :: rest =>
    if c ≠ ':' then
      match rest with
      | '/' :: rest2 =>
        if rest2.head? = some '/' then
          c :: '/' :: collapseAux fuel (rest2.dropWhile (· = '/'))
        else
          c :: collapseAux fuel rest
      | _ => c :: collapseAux fuel rest
    else
      c :: collapseAux fuel rest

/-- Whole-string form of the source expression
`` `${baseUrl}${endpoint}`.replace(/([^:]\/)\/+/g, "$1") ``. -/
def collapseSlashes (s : String) : String :=
  ⟨collapseAux s.data.length s.data⟩

/-- Rendering of the spec's wording for URL cleanup (refinement reference,
not taken from the source): every run of repeated `/` that is not part of
the scheme separator `://` is collapsed down to a single `/`. Fuel as in
`collapseAux`. -/
def collapseSpecAux : Nat → List Char → List Char
  | 0, cs => cs
  | _ + 1, [] => []
  | fuel + 1, ':' :: rest =>
    match rest with
    | '/' :: '/' :: rest2 => ':' :: '/' :: '/' :: collapseSpecAux fuel rest2
    | _ => ':' :: collapseSpecAux fuel rest
  | fuel + 1, '/' :: rest => '/' :: collapseSpecAux fuel (rest.dropWhile (· = '/'))
  | fuel + 1, c :: rest => c :: collapseSpecAux fuel rest

/-- Spec-worded slash collapsing on a whole string. -/
def collapseSpec (s : String) : String :=
  ⟨collapseSpecAux s.data.length s.data⟩

/-- Section of an endpoint path: `path.split("/")[1] || "other"`. -/
def sectionOf (path : String) : String :=
  let piece := (splitSlash path.data).getD 1 []
  if piece = [] then "other" else ⟨piece⟩

/-- Append `el` to the bucket of `sec` in an insertion-ordered record of
buckets, creating the bucket at the end when absent (JS object insertion
order). -/
def insertGroup : List (String × List String) → String → String → List (String × List String)
  | [], sec, el => [(sec, [el])]
  | (s, els) :: rest, sec, el =>
    if s = sec then (s, els ++ [el]) :: rest
    else (s, els) :: insertGroup rest sec el

/-- Record `elementsBySection` built by the `forEach` over
`Object.entries(endpoints)` in the unknown-element branch of `fetchDoc`. -/
def groupBySection (table : List (String × String)) : List (String × List String) :=
  table.foldl (fun acc entry => insertGroup acc (sectionOf entry.2) entry.1) []

/-- Message body `availableElements`: sections joined by newline, each
rendered as `section: name, name, ...`. -/
def renderGroups (groups : List (String × List String)) : String :=
  joinWith "\n" (groups.map fun g => g.1 ++ ": " ++ joinWith ", " g.2)

/-- The message of the `UnknownElement` error thrown by `fetchDoc`. -/
def unknownElementMessage (table : List (String × String)) (element : String) : String :=
  "Unknown element: " ++ element ++ "\n\nAvailable elements by section:\n"
    ++ renderGroups (groupBySection table)

/-- A parsed HTML document as produced by `cheerio.load`: element nodes with
a tag, a class list and children, and text nodes. -/
inductive Html where
  | elem (tag : String) (classes : List String) (children : List Html)
  | text (s : String)

mutual

/-- All element nodes of a node, itself included, in document order. -/
def elemsOf : Html → List Html
  | .text _ => []
  | .elem t c ch => .elem t c ch :: elemsAll ch

/-- All element nodes of a forest, in document order. -/
def elemsAll : List Html → List Html
  | [] => []
  | h :: t => elemsOf h ++ elemsAll t

end

/-- The strict descendant element nodes of a node, in document order. -/
def descendantElems : Html → List Html
  | .text _ => []
  | .elem _ _ ch => elemsAll ch

mutual

/-- Concatenated text content of a node (`$(node).text()`). -/
def textOf : Html → String
  | .text s => s
  | .elem _ _ ch => textAll ch

/-- Concatenated text content of a forest. -/
def textAll : List Html → String
  | [] => ""
  | h :: t => textOf h ++ textAll t

end

/-- Whether a node is an element with the given tag. -/
def isTag (tag : String) : Html → Bool
  | .elem t _ _ => t = tag
  | .text _ => false

/-- Whether a node is an element carrying the given class. -/
def hasClass (cls : String) : Html → Bool
  | .elem _ classes _ => classes.contains cls
  | .text _ => false

/-- Selector `$(".cls")` on a loaded document: every element in the
document with the class, in document order. -/
def selectClass (cls : String) (root : Html) : List Html :=
  (elemsOf root).filter (hasClass cls)

/-- Operation `selection.find(pred)`: strict descendants of each selected
node satisfying the predicate, concatenated in order. -/
def findBy (p : Html → Bool) (sel : List Html) : List Html :=
  (sel.map (fun n => (descendantElems n).filter p)).flatten

/-- Operation `selection.find("tag")`. -/
def findTag (tag : String) (sel : List Html) : List Html :=
  findBy (isTag tag) sel

/-- Operation `selection.find(".cls")`. -/
def findClass (cls : String) (sel : List Html) : List Html :=
  findBy (hasClass cls) sel

/-- Operation `selection.first().text()`: text of the first node of a
selection, empty for an empty selection. -/
def firstText (sel : List Html) : String :=
  match sel.head? with
  | none => ""
  | some n => textOf n

/-- One row of `parseParameters` as the list of raw texts of its `td`
cells (`$(row).find('td')` followed by `.text()` per cell). -/
def cellsOfRow (row : Html) : List String :=
  (findTag "td" [row]).map textOf

/-- The `$('tr').each` body of `parseParameters`: a row with at least two
cells yields `{name, description, required}` (cells 0 and 1 trimmed,
`required` iff cell 2's raw text contains `"required"`), other rows are
skipped. -/
def rowToParam (cells : List String) : Option Param :=
  if 2 ≤ cells.length then
    some
      { name := jsTrim (cells.getD 0 "")
        description := jsTrim (cells.getD 1 "")
        required := jsIncludes (cells.getD 2 "") "required" }
  else
    none

/-- Function `parseParameters` over the rows of the doc section, written as
the accumulating loop of the source. -/
def parseParameters (rows : List (List String)) : List Param :=
  rows.foldl
    (fun params cells =>
      match rowToParam cells with
      | some p => params ++ [p]
      | none => params)
    []

/-- The rows handed to `parseParameters`: every `tr` descendant of the doc
section, as its list of cell texts. -/
def rowsOfSection (sec : Html) : List (List String) :=
  ((descendantElems sec).filter (isTag "tr")).map cellsOfRow

/-- The extraction pipeline of `fetchDoc` applied to the `.md-content`
selection: title from the first `h1`, description from all non-empty
trimmed paragraphs joined by blank lines, parameters from the first
`.doc-children` block when present, examples from non-empty trimmed
`pre code` blocks. -/
def extractFrom (content : List Html) : ApiDoc :=
  { title := jsTrim (firstText (findTag "h1" content))
    description :=
      joinWith "\n\n"
        (((findTag "p" content).map (fun n => jsTrim (textOf n))).filter (fun t => t ≠ ""))
    parameters :=
      match (findClass "doc-children" content).head? with
      | none => []
      | some sec => parseParameters (rowsOfSection sec)
    examples :=
      ((findTag "code" (findTag "pre" content)).map (fun n => jsTrim (textOf n))).filter
        (fun t => t ≠ "") }

/-- The document extractor: `cheerio.load(body)` followed by the
`.md-content` extraction pipeline. -/
def extract (root : Html) : ApiDoc :=
  extractFrom (selectClass "md-content" root)

/-- Outcome of the `axios.get` call for one URL: the request throws, the
response body is empty (falsy `response.data`), or the body parses to a
document. -/
inductive GetResult where
  | netError
  | emptyBody
  | body (doc : Html)

/-- Operation `fetchDoc(element)`, parameterised by the endpoint table, the
base URL and the HTTP world `http`. Returns the result together with the list of
URLs requested. A missing or falsy endpoint raises the unknown-element
`InvalidParams` error without any request; a throwing GET or an empty body
is caught by the surrounding `try` and re-signalled as a single
`InternalError` naming the element; a successful body is extracted. -/
def fetchDoc (table : List (String × String)) (base : String) (http : String → GetResult)
    (element : String) : Except McpError ApiDoc × List String :=
  match lookupTable table element with
  | none => (.error ⟨.invalidParams, unknownElementMessage table element⟩, [])
  | some endpoint =>
    if endpoint = "" then
      (.error ⟨.invalidParams, unknownElementMessage table element⟩, [])
    else
      let url := collapseSlashes (base ++ endpoint)
      match http url with
      | .netError =>
        (.error ⟨.internalError, "Failed to fetch documentation for " ++ element⟩, [url])
      | .emptyBody =>
        (.error ⟨.internalError, "Failed to fetch documentation for " ++ element⟩, [url])
      | .body doc => (.ok (extract doc), [url])

/-- Lower-case hexadecimal digit, as used by `JSON.stringify` control-code
escapes. -/
def hexDigit (n : Nat) : Char :=
  if n < 10 then Char.ofNat (48 + n) else Char.ofNat (87 + n)

/-- Escaping of one character under `JSON.stringify`. -/
def jsonEscapeChar (c : Char) : String :=
  if c = '"' then "\\\""
  else if c = '\\' then "\\\\"
  else if c = '\x08' then "\\b"
  else if c = '\t' then "\\t"
  else if c = '\n' then "\\n"
  else if c = '\x0c' then "\\f"
  else if c = '\r' then "\\r"
  else if c.toNat < 32 then
    "\\u00" ++ String.singleton (hexDigit (c.toNat / 16)) ++ String.singleton (hexDigit (c.toNat % 16))
  else
    String.singleton c

/-- Rendering of a string literal under `JSON.stringify`. -/
def jsonStr (s : String) : String :=
  "\"" ++ String.join (s.data.map jsonEscapeChar) ++ "\""

/-- Rendering of a boolean under `JSON.stringify`. -/
def jsonBool : Bool → String
  | true => "true"
  | false => "false"

/-- Compact `JSON.stringify` of one parameter record. -/
def serializeParam (p : Param) : String :=
  "\x7b\"name\":" ++ jsonStr p.name ++ ",\"description\":" ++ jsonStr p.description
    ++ ",\"required\":" ++ jsonBool p.required ++ "\x7d"

/-- Compact `JSON.stringify(doc)` of an `ApiDoc`, the canonical text form
searched by `searchDocs`. -/
def serializeApiDoc (d : ApiDoc) : String :=
  "\x7b\"title\":" ++ jsonStr d.title ++ ",\"description\":" ++ jsonStr d.description
    ++ ",\"parameters\":[" ++ joinWith "," (d.parameters.map serializeParam)
    ++ "],\"examples\":[" ++ joinWith "," (d.examples.map jsonStr) ++ "]\x7d"

/-- Operation `searchDocs(query)`: iterate the endpoint table keys in order, fetch
each, skip failures, and keep the docs whose serialized form contains the
lower-cased query. Returns the kept docs in iteration order together with
all URLs requested along the way. -/
def searchDocs (table : List (String × String)) (base : String) (http : String → GetResult)
    (query : String) : List ApiDoc × List String :=
  table.foldl
    (fun acc entry =>
      match fetchDoc table base http entry.1 with
      | (.error _, tr) => (acc.1, acc.2 ++ tr)
      | (.ok doc, tr) =>
        if jsIncludes (jsLower (serializeApiDoc doc)) (jsLower query) then
          (acc.1 ++ [doc], acc.2 ++ tr)
        else
          (acc.1, acc.2 ++ tr))
    ([], [])

/-- The `arguments` object of a tool-call request, with each expected field
possibly absent. -/
structure ToolArgs where
  element : Option String
  query : Option String
deriving DecidableEq, Repr

/-- One item of a tool-call response payload. -/
structure ContentItem where
  type : String
  text : String
deriving DecidableEq, Repr

/-- A successful tool-call response. -/
structure HandlerResult where
  content : List ContentItem
deriving DecidableEq, Repr

/-- Pretty form `JSON.stringify(value, null, 2)` of a parameter record whose
opening brace sits at indentation `ind`. -/
def prettyParam (ind : String) (p : Param) : String :=
  "\x7b\n" ++ ind ++ "  \"name\": " ++ jsonStr p.name ++ ",\n"
    ++ ind ++ "  \"description\": " ++ jsonStr p.description ++ ",\n"
    ++ ind ++ "  \"required\": " ++ jsonBool p.required ++ "\n" ++ ind ++ "\x7d"

/-- Pretty form `JSON.stringify(.., null, 2)` of an array whose opening
bracket sits at indentation `ind`, items pre-rendered for indentation
`ind ++ "  "`. -/
def prettyArray (ind : String) (items : List String) : String :=
  match items with
  | [] => "[]"
  | _ => "[\n" ++ joinWith ",\n" (items.map (fun s => ind ++ "  " ++ s)) ++ "\n" ++ ind ++ "]"

/-- Pretty form `JSON.stringify(doc, null, 2)` of an `ApiDoc` whose opening
brace sits at indentation `ind`. -/
def prettyApiDocAt (ind : String) (d : ApiDoc) : String :=
  "\x7b\n" ++ ind ++ "  \"title\": " ++ jsonStr d.title ++ ",\n"
    ++ ind ++ "  \"description\": " ++ jsonStr d.description ++ ",\n"
    ++ ind ++ "  \"parameters\": "
    ++ prettyArray (ind ++ "  ") (d.parameters.map (prettyParam (ind ++ "    "))) ++ ",\n"
    ++ ind ++ "  \"examples\": "
    ++ prettyArray (ind ++ "  ") (d.examples.map jsonStr) ++ "\n" ++ ind ++ "\x7d"

/-- Payload `JSON.stringify(doc, null, 2)` of `get_element_api`. -/
def prettyApiDoc (d : ApiDoc) : String :=
  prettyApiDocAt "" d

/-- Payload `JSON.stringify(results, null, 2)` of `search_api`. -/
def prettyDocList (docs : List ApiDoc) : String :=
  prettyArray "" (docs.map (prettyApiDocAt "  "))

/-- The `CallToolRequestSchema` handler: reject a missing arguments object,
dispatch on the tool name, reject a missing (or empty, hence falsy)
required field, and otherwise run the operation and wrap its result in one
text content item. The second component is the list of URLs requested. -/
def handleCallTool (table : List (String × String)) (base : String) (http : String → GetResult)
    (name : String) (arguments : Option ToolArgs) :
    Except McpError HandlerResult × List String :=
  match arguments with
  | none => (.error ⟨.invalidParams, "Missing arguments"⟩, [])
  | some args =>
    if name = "get_element_api" then
      match args.element with
      | none => (.error ⟨.invalidParams, "Missing element parameter"⟩, [])
      | some el =>
        if el = "" then
          (.error ⟨.invalidParams, "Missing element parameter"⟩, [])
        else
          match fetchDoc table base http el with
          | (.error e, tr) => (.error e, tr)
          | (.ok doc, tr) => (.ok ⟨[⟨"text", prettyApiDoc doc⟩]⟩, tr)
    else if name = "search_api" then
      match args.query with
      | none => (.error ⟨.invalidParams, "Missing query parameter"⟩, [])
      | some q =>
        if q = "" then
          (.error ⟨.invalidParams, "Missing query parameter"⟩, [])
        else
          let r := searchDocs table base http q
          (.ok ⟨[⟨"text", prettyDocList r.1⟩]⟩, r.2)
    else
      (.error ⟨.methodNotFound, "Unknown tool: " ++ name⟩, [])

/-- The base URL of the extended server variant. -/
def baseUrl : String := "https://docs.marimo.io/api"

/-- The endpoint table of the extended server variant, in source insertion
order. -/
def endpoints : List (String × String) :=
  [("array", "/inputs/array/"),
   ("anywidget", "/inputs/anywidget/"),
   ("batch", "/inputs/batch/"),
   ("button", "/inputs/button/"),
   ("chat", "/inputs/chat/"),
   ("checkbox", "/inputs/checkbox/"),
   ("code_editor", "/inputs/code_editor/"),
   ("data_explorer", "/inputs/data_explorer/"),
   ("dataframe", "/inputs/dataframe/"),
   ("dates", "/inputs/dates/"),
   ("dictionary", "/inputs/dictionary/"),
   ("dropdown", "/inputs/dropdown/"),
   ("file", "/inputs/file/"),
   ("file_browser", "/inputs/file_browser/"),
   ("form", "/inputs/form/"),
   ("microphone", "/inputs/microphone/"),
   ("multiselect", "/inputs/multiselect/"),
   ("nav_menu", "/inputs/nav_menu/"),
   ("number", "/inputs/number/"),
   ("radio", "/inputs/radio/"),
   ("range_slider", "/inputs/range_slider/"),
   ("refresh", "/inputs/refresh/"),
   ("run_button", "/inputs/run_button/"),
   ("slider", "/inputs/slider/"),
   ("switch", "/inputs/switch/"),
   ("table", "/inputs/table/"),
   ("tabs", "/inputs/tabs/"),
   ("text", "/inputs/text/"),
   ("text_area", "/inputs/text_area/"),
   ("accordion", "/layouts/accordion/"),
   ("callout", "/layouts/callout/"),
   ("carousel", "/layouts/carousel/"),
   ("justify", "/layouts/justify/"),
   ("lazy", "/layouts/lazy/"),
   ("plain", "/layouts/plain/"),
   ("routes", "/layouts/routes/"),
   ("sidebar", "/layouts/sidebar/"),
   ("stacks", "/layouts/stacks/"),
   ("tree", "/layouts/tree/"),
   ("audio", "/media/audio/"),
   ("download", "/media/download/"),
   ("image", "/media/image/"),
   ("pdf", "/media/pdf/"),
   ("plain_text", "/media/plain_text/"),
   ("video", "/media/video/"),
   ("markdown", "/markdown/"),
   ("control_flow", "/control_flow/"),
   ("plotting", "/plotting/"),
   ("status", "/status/"),
   ("outputs", "/outputs/"),
   ("diagrams", "/diagrams/"),
   ("html", "/html/"),
   ("query_params", "/query_params/"),
   ("cli_args", "/cli_args/"),
   ("caching", "/caching/"),
   ("state", "/state/"),
   ("app", "/app/"),
   ("cell", "/cell/"),
   ("miscellaneous", "/miscellaneous/")]

/-- The mutable per-server state declared by the class: the `cache` record
(`Record<string, ApiDoc>`), initialised empty. -/
structure ServerState where
  cache : List (String × ApiDoc)
deriving DecidableEq, Repr

/-- The state at construction time: `this.cache = {}`. -/
def initialState : ServerState := ⟨[]⟩

/-- Stateful wrapper of `fetchDoc` with the server state passed explicitly. The body of
`fetchDoc` in the source neither reads nor writes `this.cache` (its only
occurrence in the class is its declaration), so the state is returned
unchanged. -/
def fetchDocSt (table : List (String × String)) (base : String) (http : String → GetResult)
    (st : ServerState) (element : String) :
    (Except McpError ApiDoc × List String) × ServerState :=
  (fetchDoc table base http element, st)

/-- Stateful wrapper of `searchDocs` with the server state passed explicitly; like `fetchDoc`
its body never mentions `this.cache`. -/
def searchDocsSt (table : List (String × String)) (base : String) (http : String → GetResult)
    (st : ServerState) (query : String) :
    (List ApiDoc × List String) × ServerState :=
  (searchDocs table base http query, st)

/-- One invocation of either operation. -/
inductive Op where
  | fetchOp (element : String)
  | searchOp (query : String)

/-- State transition of one operation invocation. -/
def runOp (table : List (String × String)) (base : String) (http : String → GetResult)
    (st : ServerState) : Op → ServerState
  | .fetchOp element => (fetchDocSt table base http st element).2
  | .searchOp query => (searchDocsSt table base http st query).2

/-- State after a sequence of operation invocations. -/
def runOps (table : List (String × String)) (base : String) (http : String → GetResult)
    (ops : List Op) (st : ServerState) : ServerState :=
  ops.foldl (runOp table base http) st

/-- The mocked documentation page of the end-to-end scenario:
`<div class="md-content"><h1>Slider</h1><p>A slider.</p></div>` inside a
document body. -/
def sliderPage : Html :=
  .elem "html" [] [.elem "body" []
    [.elem "div" ["md-content"]
      [.elem "h1" [] [.text "Slider"],
       .elem "p" [] [.text "A slider."]]]]

/-- The HTTP world of the end-to-end scenario: the slider page lives at
`https://x/api/inputs/slider/`, everything else errors. -/
def sliderHttp : String → GetResult := fun u =>
  if u = "https://x/api/inputs/slider/" then .body sliderPage else .netError

/-- First-match lookup returns an entry of the table. -/
theorem lookupTable_mem {t : List (String × String)} {e p : String}
    (h : lookupTable t e = some p) : (e, p) ∈ t := by
  induction t with
  | nil => simp [lookupTable] at h
  | cons kv rest ih =>
    obtain ⟨k, v⟩ := kv
    by_cases hk : k = e
    · subst hk
      simp [lookupTable] at h
      simp [h]
    · simp [lookupTable, hk] at h
      exact List.mem_cons_of_mem _ (ih h)

end MarimoDocs

namespace MarimoDocs

example : collapseSlashes "https://x/api//inputs/" = "https://x/api/inputs/" := by decide
example : collapseSlashes "https://x/api/inputs/slider/" = "https://x/api/inputs/slider/" := by decide
example : collapseSlashes "https:///a" = "https://a" := by decide
example : sectionOf "/inputs/array/" = "inputs" := by decide
example : sectionOf "/markdown/" = "markdown" := by decide
example : sectionOf "/" = "other" := by decide
example : sectionOf "" = "other" := by decide
example : jsIncludes "abc required x" "required" = true := by decide
example : jsIncludes "Required" "required" = false := by decide
example : jsTrim "  a b\n" = "a b" := by decide
example : jsLower "AbC" = "abc" := by decide
example : groupBySection [("a", "/x/a/"), ("b", "/y/"), ("c", "/x/c/")]
    = [("x", ["a", "c"]), ("y", ["b"])] := by decide

example : extract sliderPage
    = { title := "Slider", description := "A slider.", parameters := [], examples := [] } := by
  decide

example :
    fetchDoc [("slider", "/inputs/slider/")] "https://x/api"
      (fun u => if u = "https://x/api/inputs/slider/" then .body sliderPage else .netError)
      "slider"
    = (.ok { title := "Slider", description := "A slider.", parameters := [], examples := [] },
       ["https://x/api/inputs/slider/"]) := by
  rfl

example : lookupTable endpoints "slider" = some "/inputs/slider/" := by decide
example : lookupTable endpoints "nonexistent" = none := by decide
example : (groupBySection endpoints).map Prod.fst
    = ["inputs", "layouts", "media", "markdown", "control_flow", "plotting", "status",
       "outputs", "diagrams", "html", "query_params", "cli_args", "caching", "state",
       "app", "cell", "miscellaneous"] := by decide

end MarimoDocs

namespace MarimoDocs

/-- Every path of the endpoint table is non-empty, hence truthy. -/
theorem endpoints_paths_truthy : ∀ x ∈ endpoints, x.2 ≠ "" := by decide

/-- C1: for every name not present in the endpoint table, `fetchDoc` fails
with the unknown-element error surfaced as `InvalidParams` and performs no
request; its message enumerates the table grouped by `sectionOf` in
insertion order, the enumeration listing every known name exactly once
(the concatenation of the buckets is exactly the key list, which has no
duplicates, and every name sits in the bucket of its own path's section). -/
theorem c1_unknown_element_message (element : String) (http : String → GetResult)
    (h : lookupTable endpoints element = none) :
    fetchDoc endpoints baseUrl http element
      = (.error ⟨.invalidParams, unknownElementMessage endpoints element⟩, [])
    ∧ ((groupBySection endpoints).map Prod.snd).flatten = endpoints.map Prod.fst
    ∧ (endpoints.map Prod.fst).Nodup
    ∧ ∀ g ∈ groupBySection endpoints, ∀ e ∈ g.2,
        (lookupTable endpoints e).map sectionOf = some g.1 := by
  refine ⟨?_, by decide, by decide, by decide⟩
  unfold fetchDoc
  rw [h]

/-- Closed instance of C1 at the absent name `nonexistent`. -/
theorem c1_unknown_element_message_witness :
    lookupTable endpoints "nonexistent" = none
    ∧ fetchDoc endpoints baseUrl (fun _ => .netError) "nonexistent"
        = (.error ⟨.invalidParams, unknownElementMessage endpoints "nonexistent"⟩, []) := by
  have h := c1_unknown_element_message "nonexistent" (fun _ => .netError) (by decide)
  exact ⟨by decide, h.1⟩

/-- C2: `searchDocs` is a total function that walks the endpoint table keys
in order, fetches each, drops the failures without aborting, and keeps, in
iteration order, exactly the docs whose serialized form contains the
query case-insensitively; its request trace is the concatenation of the
per-name fetch traces. -/
theorem c2_search_characterisation (table : List (String × String)) (base : String)
    (http : String → GetResult) (query : String) :
    (searchDocs table base http query).1
      = (table.map Prod.fst).filterMap (fun el =>
          match (fetchDoc table base http el).1 with
          | .error _ => none
          | .ok doc =>
            if jsIncludes (jsLower (serializeApiDoc doc)) (jsLower query) then some doc
            else none)
    ∧ (searchDocs table base http query).2
      = ((table.map Prod.fst).map (fun el => (fetchDoc table base http el).2)).flatten := by
  have aux : ∀ (l : List (String × String)) (acc : List ApiDoc × List String),
      l.foldl
        (fun acc entry =>
          match fetchDoc table base http entry.1 with
          | (.error _, tr) => (acc.1, acc.2 ++ tr)
          | (.ok doc, tr) =>
            if jsIncludes (jsLower (serializeApiDoc doc)) (jsLower query) then
              (acc.1 ++ [doc], acc.2 ++ tr)
            else
              (acc.1, acc.2 ++ tr)) acc
      = (acc.1 ++ (l.map Prod.fst).filterMap (fun el =>
          match (fetchDoc table base http el).1 with
          | .error _ => none
          | .ok doc =>
            if jsIncludes (jsLower (serializeApiDoc doc)) (jsLower query) then some doc
            else none),
         acc.2 ++ ((l.map Prod.fst).map (fun el => (fetchDoc table base http el).2)).flatten) := by
    intro l
    induction l with
    | nil => intro acc; simp
    | cons entry rest ih =>
      intro acc
      rcases hfd : fetchDoc table base http entry.1 with ⟨r, tr⟩
      rcases r with e | doc
      · simp only [List.foldl_cons, List.map_cons, List.filterMap_cons, List.flatten_cons, hfd,
          ih]
        simp [List.append_assoc]
      · by_cases hq : jsIncludes (jsLower (serializeApiDoc doc)) (jsLower query) = true
        · simp only [List.foldl_cons, List.map_cons, List.filterMap_cons, List.flatten_cons,
            hfd, hq, ih]
          simp [hq, List.append_assoc]
        · simp only [List.foldl_cons, List.map_cons, List.filterMap_cons, List.flatten_cons,
            hfd, ih]
          simp [hq, List.append_assoc]
  have h := aux table ([], [])
  unfold searchDocs
  rw [h]
  simp

/-- Closed instance of C2: searching `slider` over the one-entry table of
the end-to-end scenario returns exactly the slider record. -/
theorem c2_search_characterisation_witness :
    (searchDocs [("slider", "/inputs/slider/")] "https://x/api" sliderHttp "slider").1
      = [{ title := "Slider", description := "A slider.", parameters := [], examples := [] }] := by
  have h := c2_search_characterisation [("slider", "/inputs/slider/")] "https://x/api"
    sliderHttp "slider"
  rw [h.1]
  rfl

/-- C3: for a name of the endpoint table, a throwing GET or an empty
response body makes `fetchDoc` fail, and the failure is re-signalled at
the `try` boundary as one `InternalError` whose message contains the
element name. -/
theorem c3_fetch_failure_internal_error (element path : String) (http : String → GetResult)
    (hlook : lookupTable endpoints element = some path)
    (hfail : http (collapseSlashes (baseUrl ++ path)) = .netError
      ∨ http (collapseSlashes (baseUrl ++ path)) = .emptyBody) :
    fetchDoc endpoints baseUrl http element
      = (.error ⟨.internalError, "Failed to fetch documentation for " ++ element⟩,
         [collapseSlashes (baseUrl ++ path)])
    ∧ ∃ pre, "Failed to fetch documentation for " ++ element = pre ++ element := by
  have hne : path ≠ "" := endpoints_paths_truthy _ (lookupTable_mem hlook)
  refine ⟨?_, ⟨"Failed to fetch documentation for ", rfl⟩⟩
  simp only [fetchDoc, hlook]
  rw [if_neg hne]
  rcases hfail with hf | hf
  · simp only [hf]
  · simp only [hf]

/-- Closed instance of C3 at `slider` with a throwing GET. -/
theorem c3_fetch_failure_internal_error_witness :
    lookupTable endpoints "slider" = some "/inputs/slider/"
    ∧ fetchDoc endpoints baseUrl (fun _ => .netError) "slider"
        = (.error ⟨.internalError, "Failed to fetch documentation for slider"⟩,
           [collapseSlashes (baseUrl ++ "/inputs/slider/")]) := by
  have h := c3_fetch_failure_internal_error "slider" "/inputs/slider/" (fun _ => .netError)
    (by decide) (Or.inl rfl)
  exact ⟨by decide, h.1⟩

/-- C4: for every name of the endpoint table, `fetchDoc` issues exactly one
GET, at the concatenation of the base URL and the path with the slash runs
collapsed by the source's regex, and on this table the regex agrees with
the spec's wording (every run of repeated `/` outside the scheme
separator collapsed to one `/`). -/
theorem c4_single_get_collapsed_url (element path : String) (http : String → GetResult)
    (h : lookupTable endpoints element = some path) :
    (fetchDoc endpoints baseUrl http element).2 = [collapseSlashes (baseUrl ++ path)]
    ∧ collapseSlashes (baseUrl ++ path) = collapseSpec (baseUrl ++ path) := by
  have hne : path ≠ "" := endpoints_paths_truthy _ (lookupTable_mem h)
  constructor
  · simp only [fetchDoc, h]
    rw [if_neg hne]
    cases hh : http (collapseSlashes (baseUrl ++ path)) <;> simp only [hh]
  · have hall : ∀ x ∈ endpoints,
        collapseSlashes (baseUrl ++ x.2) = collapseSpec (baseUrl ++ x.2) := by decide
    exact hall _ (lookupTable_mem h)

/-- Closed instance of C4 at `slider`. -/
theorem c4_single_get_collapsed_url_witness :
    lookupTable endpoints "slider" = some "/inputs/slider/"
    ∧ (fetchDoc endpoints baseUrl (fun _ => .netError) "slider").2
        = [collapseSlashes (baseUrl ++ "/inputs/slider/")]
    ∧ collapseSlashes (baseUrl ++ "/inputs/slider/")
        = collapseSpec (baseUrl ++ "/inputs/slider/") := by
  have h := c4_single_get_collapsed_url "slider" "/inputs/slider/" (fun _ => .netError)
    (by decide)
  exact ⟨by decide, h.1, h.2⟩

/-- C5: the parameter parser keeps exactly the rows with at least two
cells; `["n", "d"]` yields `{n, d, required := false}`, a third cell
containing `required` flips the flag, the flag is exactly the
case-sensitive containment test on the third cell's raw text, and an
absent third cell yields `false`. -/
theorem c5_parameter_rows :
    (∀ rows, parseParameters rows = rows.filterMap rowToParam)
    ∧ rowToParam ["n", "d"] = some { name := "n", description := "d", required := false }
    ∧ rowToParam ["n", "d", "required"]
        = some { name := "n", description := "d", required := true }
    ∧ (∀ cells : List String, cells.length < 2 → rowToParam cells = none)
    ∧ (∀ cells : List String, 2 ≤ cells.length →
        (rowToParam cells).map Param.required = some (jsIncludes (cells.getD 2 "") "required"))
    ∧ (∀ n d : String,
        rowToParam [n, d] = some { name := jsTrim n, description := jsTrim d, required := false }) := by
  have hchar : ∀ rows, parseParameters rows = rows.filterMap rowToParam := by
    have aux : ∀ (rows : List (List String)) (acc : List Param),
        rows.foldl
          (fun params cells =>
            match rowToParam cells with
            | some p => params ++ [p]
            | none => params) acc
        = acc ++ rows.filterMap rowToParam := by
      intro rows
      induction rows with
      | nil => intro acc; simp
      | cons cells rest ih =>
        intro acc
        cases hr : rowToParam cells <;>
          simp only [List.foldl_cons, List.filterMap_cons, hr, ih] <;>
          simp [List.append_assoc]
    intro rows
    have h := aux rows []
    unfold parseParameters
    rw [h]
    simp
  refine ⟨hchar, by decide, by decide, ?_, ?_, ?_⟩
  · intro cells hlen
    unfold rowToParam
    rw [if_neg (by omega)]
  · intro cells hlen
    unfold rowToParam
    rw [if_pos hlen]
    rfl
  · intro n d
    have hreq : jsIncludes "" "required" = false := by decide
    simp [rowToParam, hreq, List.getD]

/-- Closed instance of C5: a one-cell row is dropped, and a third cell of
`c required d` makes the flag true. -/
theorem c5_parameter_rows_witness :
    ((["x"] : List String).length < 2 ∧ rowToParam ["x"] = none)
    ∧ (2 ≤ (["a", "b", "c required d"] : List String).length
        ∧ (rowToParam ["a", "b", "c required d"]).map Param.required = some true) := by
  refine ⟨⟨by decide, c5_parameter_rows.2.2.2.1 ["x"] (by decide)⟩, ⟨by decide, ?_⟩⟩
  have h := c5_parameter_rows.2.2.2.2.1 ["a", "b", "c required d"] (by decide)
  rw [h]
  decide

/-- C6: an HTML document with no element of class `md-content` makes the
extractor return the empty record rather than raising. -/
theorem c6_extractor_degrades (root : Html)
    (h : selectClass "md-content" root = []) :
    extract root = { title := "", description := "", parameters := [], examples := [] } := by
  unfold extract
  rw [h]
  rfl

/-- Closed instance of C6 on a document without the content container. -/
theorem c6_extractor_degrades_witness :
    selectClass "md-content" (.elem "html" [] [.elem "body" [] [.text "hi"]]) = []
    ∧ extract (.elem "html" [] [.elem "body" [] [.text "hi"]])
        = { title := "", description := "", parameters := [], examples := [] } := by
  have h0 : selectClass "md-content" (.elem "html" [] [.elem "body" [] [.text "hi"]]) = [] := rfl
  exact ⟨h0, c6_extractor_degrades _ h0⟩

/-- C7: with the one-entry table `slider ↦ /inputs/slider/`, base URL
`https://x/api`, and the mocked slider page served at the collapsed URL,
`fetchDoc "slider"` returns exactly
`{title := Slider, description := A slider., parameters := [], examples := []}`,
via a single GET. -/
theorem c7_end_to_end :
    fetchDoc [("slider", "/inputs/slider/")] "https://x/api" sliderHttp "slider"
      = (.ok { title := "Slider", description := "A slider.", parameters := [], examples := [] },
         ["https://x/api/inputs/slider/"]) := by
  rfl

/-- C8: the dispatcher rejects a missing arguments object with
`InvalidParams`, a `get_element_api` call without the `element` key with a
field-specific `InvalidParams`, and an unrecognized tool name with
`MethodNotFound`; in all three cases the request trace is empty, so no GET
was attempted. -/
theorem c8_dispatcher_rejections (table : List (String × String)) (base : String)
    (http : String → GetResult) :
    (∀ name, handleCallTool table base http name none
        = (.error ⟨.invalidParams, "Missing arguments"⟩, []))
    ∧ (∀ q, handleCallTool table base http "get_element_api" (some ⟨none, q⟩)
        = (.error ⟨.invalidParams, "Missing element parameter"⟩, []))
    ∧ (∀ name args, name ≠ "get_element_api" → name ≠ "search_api" →
        handleCallTool table base http name (some args)
          = (.error ⟨.methodNotFound, "Unknown tool: " ++ name⟩, [])) := by
  refine ⟨fun name => rfl, fun q => rfl, fun name args h1 h2 => ?_⟩
  simp only [handleCallTool]
  rw [if_neg h1, if_neg h2]

/-- Closed instance of C8: the three rejection shapes at concrete
requests. -/
theorem c8_dispatcher_rejections_witness :
    handleCallTool [] "" (fun _ => .netError) "get_element_api" none
      = (.error ⟨.invalidParams, "Missing arguments"⟩, [])
    ∧ handleCallTool [] "" (fun _ => .netError) "get_element_api" (some ⟨none, none⟩)
      = (.error ⟨.invalidParams, "Missing element parameter"⟩, [])
    ∧ ("unknown_tool" ≠ "get_element_api" ∧ "unknown_tool" ≠ "search_api")
    ∧ handleCallTool [] "" (fun _ => .netError) "unknown_tool" (some ⟨some "x", none⟩)
      = (.error ⟨.methodNotFound, "Unknown tool: unknown_tool"⟩, []) := by
  have h := c8_dispatcher_rejections [] "" (fun _ => .netError)
  refine ⟨h.1 "get_element_api", h.2.1 none, ⟨by decide, by decide⟩, ?_⟩
  exact h.2.2 "unknown_tool" ⟨some "x", none⟩ (by decide) (by decide)

/-- C9: the cache map is never written or consulted: after any sequence of
fetch and search invocations the state still has an empty cache, and a
fetch of a table name issues its GET whatever the current state, in
particular regardless of prior fetches of the same name. -/
theorem c9_cache_never_used (table : List (String × String)) (base : String)
    (http : String → GetResult) :
    (∀ ops : List Op, (runOps table base http ops initialState).cache = [])
    ∧ (∀ (st : ServerState) (element path : String),
        lookupTable endpoints element = some path →
        (fetchDocSt endpoints baseUrl http st element).1.2
          = [collapseSlashes (baseUrl ++ path)]) := by
  constructor
  · have hrun : ∀ (ops : List Op) (st : ServerState), runOps table base http ops st = st := by
      intro ops
      induction ops with
      | nil => intro st; rfl
      | cons op rest ih =>
        intro st
        have hstep : runOp table base http st op = st := by
          cases op <;> rfl
        calc runOps table base http (op :: rest) st
            = runOps table base http rest (runOp table base http st op) := rfl
          _ = runOps table base http rest st := by rw [hstep]
          _ = st := ih st
    intro ops
    rw [hrun ops initialState]
    rfl
  · intro st element path hlook
    have hne : path ≠ "" := endpoints_paths_truthy _ (lookupTable_mem hlook)
    show (fetchDoc endpoints baseUrl http element).2 = _
    simp only [fetchDoc, hlook]
    rw [if_neg hne]
    cases hh : http (collapseSlashes (baseUrl ++ path)) <;> simp only [hh]

/-- Closed instance of C9: a fetch-search-fetch sequence leaves the cache
empty, and a repeated fetch of `slider` still issues its GET. -/
theorem c9_cache_never_used_witness :
    (runOps endpoints baseUrl (fun _ => .netError)
        [.fetchOp "slider", .searchOp "x", .fetchOp "slider"] initialState).cache = []
    ∧ lookupTable endpoints "slider" = some "/inputs/slider/"
    ∧ (fetchDocSt endpoints baseUrl (fun _ => .netError) initialState "slider").1.2
        = [collapseSlashes (baseUrl ++ "/inputs/slider/")] := by
  have h := c9_cache_never_used endpoints baseUrl (fun _ => .netError)
  exact ⟨h.1 _, by decide, h.2 initialState "slider" "/inputs/slider/" (by decide)⟩

/-- C10: argument presence is tested by truthiness, so binding `element`
(resp. `query`) to the empty string is rejected exactly like an absent
field, with the missing-parameter message and an empty request trace. -/
theorem c10_empty_string_arguments (table : List (String × String)) (base : String)
    (http : String → GetResult) :
    (∀ q, handleCallTool table base http "get_element_api" (some ⟨some "", q⟩)
        = (.error ⟨.invalidParams, "Missing element parameter"⟩, []))
    ∧ (∀ e, handleCallTool table base http "search_api" (some ⟨e, some ""⟩)
        = (.error ⟨.invalidParams, "Missing query parameter"⟩, [])) :=
  ⟨fun _ => rfl, fun _ => rfl⟩

/-- Closed instance of C10 at the production table and base URL. -/
theorem c10_empty_string_arguments_witness :
    handleCallTool endpoints baseUrl (fun _ => .netError) "get_element_api"
        (some ⟨some "", none⟩)
      = (.error ⟨.invalidParams, "Missing element parameter"⟩, [])
    ∧ handleCallTool endpoints baseUrl (fun _ => .netError) "search_api"
        (some ⟨none, some ""⟩)
      = (.error ⟨.invalidParams, "Missing query parameter"⟩, []) := by
  have h := c10_empty_string_arguments endpoints baseUrl (fun _ => .netError)
  exact ⟨h.1 none, h.2 none⟩

end MarimoDocs
